import Mathlib

/-!
# Verification of the spectrum reconstruction pipeline

Shallow embedding of the reconstruction pipeline of
`src/model.py` and `src/models/model_loader.py`:

* ROI text parsing (`_parse_roi_line`, `_load_rois`, the background line of
  `reconstruct_latest`),
* per-region gray means (`_compute_roi_mean_gray`),
* feature standardization `(x - mean) / (std + 1e-6)`,
* `ModelLoader.load` / `ModelLoader.predict`,
* the `reconstruct_latest` orchestrator.

Numbers are embedded as exact rationals (`ℚ`); file contents as lists of
lines (`List String`); missing files as `none`.  Python exceptions are
embedded as `Except` error values.
-/

namespace SpectrumML

/-! ## Python numeric-token parsing

`int(s)` and `float(s)` on already-stripped tokens.  `digitsVal?` is the
value of a nonempty all-digit string; signs are handled on top.  (Python
also accepts underscores in literals and `inf`/`nan`; those are not
representable here and do not occur in ROI files.) -/

/-- The whitespace characters stripped by Python's `str.strip()`. -/
def isPySpace (c : Char) : Bool :=
  c = ' ' || c = '\t' || c = '\n' || c = '\r' || c = '\x0b' || c = '\x0c'

/-- Embedding of Python `s.strip()`: drop leading and trailing whitespace. -/
def pyStrip (s : String) : String :=
  (((s.toList.dropWhile isPySpace).reverse.dropWhile isPySpace).reverse).asString

/-- Base-10 value of a nonempty list of digit characters; `none` otherwise. -/
def digitsVal? (cs : List Char) : Option ℕ :=
  if cs.isEmpty then none
  else if cs.all Char.isDigit then
    some (cs.foldl (fun n c => 10 * n + (c.toNat - 48)) 0)
  else none

/-- Optional-sign wrapper shared by `int()` and the exponent of `float()`. -/
def signedDigitsVal? (cs : List Char) : Option ℤ :=
  match cs with
  | '-' :: rest => (digitsVal? rest).map (fun n => -(n : ℤ))
  | '+' :: rest => (digitsVal? rest).map (fun n => (n : ℤ))
  | _ => (digitsVal? cs).map (fun n => (n : ℤ))

/-- Embedding of Python `int(s)` on a stripped token: optional sign, digits. -/
def pyInt? (s : String) : Option ℤ :=
  signedDigitsVal? s.toList

/-- Split a list of characters at every occurrence of `sep` (like Python
`str.split(sep)` for a one-character separator: `n` separators give
`n + 1` pieces, empty pieces included). -/
def splitOnChar (sep : Char) (cs : List Char) : List (List Char) :=
  match cs with
  | [] => [[]]
  | c :: rest =>
    let ps := splitOnChar sep rest
    if c = sep then [] :: ps
    else match ps with
      | p :: ps2 => (c :: p) :: ps2
      | [] => [[c]]

/-- Mantissa of a float literal: `digits`, `digits.digits`, `.digits` or
`digits.` (at least one digit overall). -/
def mantissaVal? (cs : List Char) : Option ℚ :=
  match splitOnChar '.' cs with
  | [ip] => (digitsVal? ip).map (fun n => (n : ℚ))
  | [ip, fp] =>
      if ip.isEmpty && fp.isEmpty then none
      else
        match (if ip.isEmpty then some 0 else digitsVal? ip),
              (if fp.isEmpty then some 0 else digitsVal? fp) with
        | some i, some f => some ((i : ℚ) + (f : ℚ) / (10 : ℚ) ^ fp.length)
        | _, _ => none
  | _ => none

/-- Unsigned float literal: mantissa with optional `e`/`E` exponent. -/
def pyFloatCore? (cs : List Char) : Option ℚ :=
  match splitOnChar 'e' (cs.map Char.toLower) with
  | [m] => mantissaVal? m
  | [m, ex] =>
      match mantissaVal? m, signedDigitsVal? ex with
      | some mv, some e => some (mv * (10 : ℚ) ^ e)
      | _, _ => none
  | _ => none

/-- Embedding of Python `float(s)` on a stripped token (decimal literals
with optional sign and exponent; `inf`/`nan` have no rational value and are
not modeled). -/
def pyFloat? (s : String) : Option ℚ :=
  match s.toList with
  | '-' :: rest => (pyFloatCore? rest).map (fun v => -v)
  | '+' :: rest => pyFloatCore? rest
  | cs => pyFloatCore? cs

/-! ## Tokenization

`model.py` tokenizes an ROI line by
`[s.strip() for s in line.replace("\t", ",").replace(" ", ",").split(",") if s.strip()]`.
Both `replace` patterns are single characters, so `replace` is a character
map. -/

/-- Tokens of an ROI line: tabs and spaces are turned into commas, the line
is split on commas, each piece stripped, empty pieces dropped. -/
def pythonTokens (line : String) : List String :=
  (((splitOnChar ','
        (line.toList.map (fun c => if c = '\t' then ',' else if c = ' ' then ',' else c))).map
      (fun cs => pyStrip cs.asString)).filter (fun s => s ≠ ""))

/-! ## Error model

Python exception classes raised by the pipeline.  The spec's abstract
error kinds map onto them: `ConfigurationError` covers `fileNotFound` and
the `runtimeError`s raised while loading ROI files; `DimensionMismatch`
is the `valueError` of `ModelLoader.predict`. -/

/-- Exception classes thrown by `model.py` / `model_loader.py`. -/
inductive PipeError where
  | runtimeError (msg : String)
  | fileNotFound (path : String)
  | modelLoadError (msg : String)
  | valueError (msg : String)
  deriving DecidableEq, Repr

/-- Decidable equality for `Except` results (kernel-reducible, so `decide`
can settle concrete pipeline runs). -/
def exceptDecEq {ε α : Type} [DecidableEq ε] [DecidableEq α] :
    DecidableEq (Except ε α)
  | .ok a, .ok b =>
      if h : a = b then .isTrue (by rw [h]) else .isFalse (fun hh => h (Except.ok.inj hh))
  | .error a, .error b =>
      if h : a = b then .isTrue (by rw [h]) else .isFalse (fun hh => h (Except.error.inj hh))
  | .ok _, .error _ => .isFalse (fun hh => Except.noConfusion hh)
  | .error _, .ok _ => .isFalse (fun hh => Except.noConfusion hh)

instance {ε α : Type} [DecidableEq ε] [DecidableEq α] : DecidableEq (Except ε α) :=
  exceptDecEq

/-! ## Foreground ROI parsing (`_parse_roi_line`, `_load_rois`) -/

/-- Embedding of `_parse_roi_line` (model.py:142-150): tokenize; fewer than
4 tokens or a non-integer among the first 4 yields `None`; otherwise the
first four tokens give `(x, y, w, h)` and the rest are ignored. -/
def parseRoiLine (line : String) : Option (ℤ × ℤ × ℤ × ℤ) :=
  let parts := pythonTokens line
  if parts.length < 4 then none
  else
    match pyInt? (parts.getD 0 ""), pyInt? (parts.getD 1 ""),
          pyInt? (parts.getD 2 ""), pyInt? (parts.getD 3 "") with
    | some x, some y, some w, some h => some (x, y, w, h)
    | _, _, _, _ => none

/-- The loop guard `if limit and len(rois) >= limit: break` of `_load_rois`:
`limit` of `None` or `0` is falsy and never breaks. -/
def limHit : Option ℕ → ℕ → Bool
  | none, _ => false
  | some 0, _ => false
  | some (l + 1), n => decide (l + 1 ≤ n)

/-- Loop body of `_load_rois` (model.py:153-165): strip each line, skip
empty ones, append each parsed region, stop once the limit guard fires. -/
def loadRoisGo (lim : Option ℕ) : List String → List (ℤ × ℤ × ℤ × ℤ) → List (ℤ × ℤ × ℤ × ℤ)
  | [], acc => acc
  | l :: ls, acc =>
    if pyStrip l = "" then loadRoisGo lim ls acc
    else
      match parseRoiLine (pyStrip l) with
      | some r =>
          if limHit lim (acc ++ [r]).length then acc ++ [r]
          else loadRoisGo lim ls (acc ++ [r])
      | none =>
          if limHit lim acc.length then acc else loadRoisGo lim ls acc

/-- Embedding of `_load_rois(path, limit)` on the file's lines. -/
def loadRois (lines : List String) (lim : Option ℕ) : List (ℤ × ℤ × ℤ × ℤ) :=
  loadRoisGo lim lines []

/-! ## Grayscale images and per-region means (`_compute_roi_mean_gray`) -/

/-- A decoded grayscale image: shape `(H, W)` and a pixel intensity map. -/
structure GrayImage where
  H : ℤ
  W : ℤ
  px : ℤ → ℤ → ℚ

/-- Embedding of `_compute_roi_mean_gray` (model.py:168-176): clip the
rectangle to the image, return `0.0` if the clipped rectangle is
degenerate, otherwise `np.mean` of the patch `img[y0:y1, x0:x1]` (rows
`y0..y1-1`, columns `x0..x1-1`, summed and divided by the patch's
`(y1-y0)*(x1-x0)` element count). -/
def computeRoiMeanGray (img : GrayImage) (roi : ℤ × ℤ × ℤ × ℤ) : ℚ :=
  let x0 := max 0 roi.1
  let y0 := max 0 roi.2.1
  let x1 := min img.W (roi.1 + roi.2.2.1)
  let y1 := min img.H (roi.2.1 + roi.2.2.2)
  if x1 ≤ x0 ∨ y1 ≤ y0 then 0
  else
    ((List.range (y1 - y0).toNat).map (fun i : ℕ =>
        ((List.range (x1 - x0).toNat).map
          (fun j : ℕ => img.px (y0 + (i : ℤ)) (x0 + (j : ℤ)))).sum)).sum /
      (((y1 - y0) * (x1 - x0) : ℤ) : ℚ)

/-- The set of pixel coordinates `(row, col)` in the intersection of the
region rectangle with the image bounds (the spec's description of the
extractor's domain for one region). -/
def roiInterSet (img : GrayImage) (roi : ℤ × ℤ × ℤ × ℤ) : Finset (ℤ × ℤ) :=
  (Finset.Ico roi.2.1 (roi.2.1 + roi.2.2.2) ∩ Finset.Ico 0 img.H) ×ˢ
    (Finset.Ico roi.1 (roi.1 + roi.2.2.1) ∩ Finset.Ico 0 img.W)

/-- The spec's description of the per-region statistic: the arithmetic mean
of the pixel intensities over the intersection of the region with the image
bounds, `0.0` when that intersection is empty. -/
def roiInterMean (img : GrayImage) (roi : ℤ × ℤ × ℤ × ℤ) : ℚ :=
  if roiInterSet img roi = ∅ then 0
  else (∑ p ∈ roiInterSet img roi, img.px p.1 p.2) / (roiInterSet img roi).card

/-- Feature extraction step of `reconstruct_latest` (model.py:215-216):
per-region gray means, each divided by the background value. -/
def extractFeatures (img : GrayImage) (rois : List (ℤ × ℤ × ℤ × ℤ)) (bgValue : ℚ) :
    List ℚ :=
  (rois.map (computeRoiMeanGray img)).map (fun v => v / bgValue)

/-! ## Background line and ROI catalog loading (model.py:193-213) -/

/-- The epsilon `1e-6` used both for the zero background value and in
feature standardization. -/
def eps : ℚ := 1 / 1000000

/-- Embedding of the background-value block of `reconstruct_latest`
(model.py:193-206): a missing file raises `FileNotFoundError`; the FIRST
line (`f.readline()`) is stripped and tokenized; fewer than 5 tokens or a
5th token `float()` cannot parse raise `RuntimeError`; a value of exactly
`0` is replaced by `1e-6`. -/
def parseBgValue (bgFile : Option (List String)) : Except PipeError ℚ :=
  match bgFile with
  | none => .error (.fileNotFound "bgrois.txt")
  | some lines =>
    let parts := pythonTokens (pyStrip (lines.headD ""))
    if parts.length < 5 then
      .error (.runtimeError "bgrois.txt must contain at least 5 values (xywh,value)")
    else
      match pyFloat? (parts.getD 4 "") with
      | none => .error (.runtimeError "Invalid bg value in bgrois.txt")
      | some v => .ok (if v = 0 then eps else v)

/-- Embedding of the foreground-ROI block of `reconstruct_latest`
(model.py:208-213): a missing file raises `FileNotFoundError`; fewer than
32 parsed regions raise `RuntimeError`. -/
def loadFgRois (fgFile : Option (List String)) : Except PipeError (List (ℤ × ℤ × ℤ × ℤ)) :=
  match fgFile with
  | none => .error (.fileNotFound "rois.txt")
  | some lines =>
    let fgList := loadRois lines (some 32)
    if fgList.length < 32 then
      .error (.runtimeError ("ROIs insufficient: need 32, got " ++ toString fgList.length))
    else .ok fgList

/-- The ROI-catalog loading phase of `reconstruct_latest`: background value
first (model.py:193-206), then foreground regions (model.py:208-213). -/
def loadRoiCatalog (fgFile bgFile : Option (List String)) :
    Except PipeError (List (ℤ × ℤ × ℤ × ℤ) × ℚ) :=
  (parseBgValue bgFile).bind (fun bgValue =>
    (loadFgRois fgFile).bind (fun fgList => .ok (fgList, bgValue)))

/-! ## Normalizer, wavelengths, `ModelLoader` -/

/-- Per-dimension standardization `(x - mean) / (std + 1e-6)`
(model.py:229 and model_loader.py:91). -/
def normalizeVec (xs mean std : List ℚ) : List ℚ :=
  (xs.zip (mean.zip std)).map (fun p => (p.1 - p.2.1) / (p.2.2 + eps))

/-- Embedding of `np.linspace(a, b, n)`: `n` evenly spaced points with both
endpoints included (`[a]` for `n = 1`, `[]` for `n = 0`). -/
def linspace (a b : ℚ) : ℕ → List ℚ
  | 0 => []
  | 1 => [a]
  | n => (List.range n).map (fun i : ℕ => a + (b - a) * (i : ℚ) / ((n : ℚ) - 1))

/-- State of a `ModelLoader`: the model handle is `none` until `load`
succeeds (`self.model = None` in `__init__`); the forward pass is opaque. -/
structure LoaderState where
  model : Option (List ℚ → List ℚ)
  inputMean : List ℚ
  inputStd : List ℚ

/-- Embedding of `ModelLoader.predict` (model_loader.py:74-110): raise
`RuntimeError` when the model handle is unset; raise `ValueError` (the
spec's `DimensionMismatch`) when the feature length differs from
`input_mean`'s length; otherwise standardize, run the forward pass, and
pair the intensities with `np.linspace(400, 1000, len(intensities))`. -/
def predict (st : LoaderState) (features : List ℚ) :
    Except PipeError (List ℚ × List ℚ) :=
  match st.model with
  | none => .error (.runtimeError "Model not loaded. Call load() first.")
  | some fwd =>
    if features.length ≠ st.inputMean.length then
      .error (.valueError ("Input features dimension mismatch. Expected " ++
        toString st.inputMean.length ++ ", got " ++ toString features.length))
    else
      let intensities := fwd (normalizeVec features st.inputMean st.inputStd)
      .ok (linspace 400 1000 intensities.length, intensities)

/-- Embedding of the output-dimension inference of `ModelLoader.load`
(model_loader.py:56-60): the row count `shape[0]` of `fc.weight` when that
key is present (`none` models the `IndexError` of an empty shape), the
default `255` when absent. -/
def loadOutputDim (stateDict : String → Option (List ℕ)) : Option ℕ :=
  match stateDict "fc.weight" with
  | some shape => shape.head?
  | none => some 255

/-- `true` on `Except.ok`, `false` on `Except.error` ("the call raised"). -/
def exceptIsOk {ε α : Type} : Except ε α → Bool
  | .ok _ => true
  | .error _ => false

/-- For comparison with claim C6 only, modelled from the spec's words:
the background reference according to the spec is the 5th numeric token of
the first NON-EMPTY line of the background file (with the same
zero-epsilon substitution).  The source reads only `f.readline()`, the
first line. -/
def specBgValueFirstNonEmpty (lines : List String) : Option ℚ :=
  match lines.find? (fun l => pyStrip l ≠ "") with
  | none => none
  | some l =>
    let parts := pythonTokens (pyStrip l)
    if parts.length < 5 then none
    else (pyFloat? (parts.getD 4 "")).map (fun v => if v = 0 then eps else v)

/-! ## Capture selection (`_list_captures`, `_latest_capture`) -/

/-- Embedding of `_list_captures` (model.py:128-131): the `.png`, `.jpg`
and `.jpeg` globs, concatenated and sorted by name. -/
def strEndsWith (s suf : String) : Bool :=
  suf.toList.isSuffixOf s.toList

/-- Lexicographic comparison of character lists by code point (the order
`sorted` uses on path strings). -/
def charListLe : List Char → List Char → Bool
  | [], _ => true
  | _ :: _, [] => false
  | a :: as, b :: bs =>
    if a.toNat = b.toNat then charListLe as bs else decide (a.toNat < b.toNat)

def strLe (a b : String) : Bool := charListLe a.toList b.toList

/-- Stable insertion step for `pySorted`. -/
def insertSorted {α : Type} (le : α → α → Bool) (a : α) : List α → List α
  | [] => [a]
  | b :: l => if le a b then a :: b :: l else b :: insertSorted le a l

/-- Embedding of Python's stable `sorted`. -/
def pySorted {α : Type} (le : α → α → Bool) (l : List α) : List α :=
  l.foldr (insertSorted le) []

def listCaptures (files : List (String × ℤ)) : List (String × ℤ) :=
  pySorted (fun a b => strLe a.1 b.1)
    ((files.filter (fun f => strEndsWith f.1 ".png")) ++
     (files.filter (fun f => strEndsWith f.1 ".jpg")) ++
     (files.filter (fun f => strEndsWith f.1 ".jpeg")))

/-- Embedding of `_latest_capture` (model.py:134-139): `None` when there
are no captures, otherwise the name of the capture with the greatest
modification time (the head after a stable descending sort on mtime, i.e.
the earliest listed file among those of maximal mtime). -/
def latestCapture (files : List (String × ℤ)) : Option String :=
  match listCaptures files with
  | [] => none
  | f :: rest => some ((rest.foldl (fun best g => if best.2 < g.2 then g else best) f).1)

/-! ## The environment and `reconstruct_latest` -/

/-- Everything `reconstruct_latest` reads from disk, plus the opaque
forward pass of the network built by `ModelLoader.load`.  A `none` file is
a missing file; `image` is the decoded grayscale of the latest capture
(`none` when `cv2.imread` fails). -/
structure Env where
  captures : List (String × ℤ)
  image : Option GrayImage
  bgFile : Option (List String)
  fgFile : Option (List String)
  meanArr : Option (List ℚ)
  stdArr : Option (List ℚ)
  stateDict : Option (String → Option (List ℕ))
  forward : List ℚ → List ℚ

/-- Embedding of `ModelLoader.load` (model_loader.py:32-72): missing model
file, mean file or std file raise `ModelLoadError`; the output dimension is
inferred from `fc.weight` (default 255); on success the model handle is set
and the loader holds the mean/std arrays read from the same `.npy` files. -/
def loaderLoad (env : Env) : Except PipeError LoaderState :=
  match env.stateDict with
  | none => .error (.modelLoadError "Model file not found")
  | some sd =>
    match env.meanArr with
    | none => .error (.modelLoadError "Mean file not found")
    | some mean =>
      match env.stdArr with
      | none => .error (.modelLoadError "Std file not found")
      | some std =>
        match loadOutputDim sd with
        | none => .error (.modelLoadError "Failed to load model")
        | some _ => .ok ⟨some env.forward, mean, std⟩

/-- Embedding of `reconstruct_latest` (model.py:179-260), up to the
spectrum `(wavelengths, intensities)` (plot rendering and the returned PNG
path are out of scope).  The steps, in source order: latest capture, image
decode, background value, foreground ROIs, per-region means divided by the
background value, standardization against `input_mean`/`input_std`,
`ModelLoader.load` + `predict` (whose failures are wrapped into
`RuntimeError("Model inference error: ...")`), the empty-intensities
check, and the `or`-fallback for missing wavelengths. -/
def reconstructLatest (env : Env) : Except PipeError (List ℚ × List ℚ) :=
  match latestCapture env.captures with
  | none => .error (.runtimeError "No capture found. Please run 'capture' first.")
  | some _imgPath =>
    match env.image with
    | none => .error (.runtimeError "Failed to read image")
    | some img =>
      (parseBgValue env.bgFile).bind (fun bgValue =>
      (loadFgRois env.fgFile).bind (fun fgList =>
      let features := extractFeatures img fgList bgValue
      match env.meanArr with
      | none => .error (.runtimeError "Failed to load input_mean.npy: missing")
      | some mean =>
        match env.stdArr with
        | none => .error (.runtimeError "Failed to load input_std.npy: missing")
        | some std =>
          if mean.length ≠ 32 ∨ std.length ≠ 32 then
            .error (.runtimeError "input_mean/std must have shape (32,)")
          else
            let x := normalizeVec features mean std
            match (loaderLoad env).bind (fun st => predict st x) with
            | .error _ => .error (.runtimeError "Model inference error")
            | .ok (ws, intensities) =>
              if intensities = [] then
                .error (.runtimeError "Model returned empty intensities")
              else
                let wavelengths :=
                  if ws = [] then (List.range intensities.length).map
                    (fun i => ((400 + i : ℕ) : ℚ))
                  else ws
                .ok (wavelengths, intensities)))

/-- A concrete, fully populated environment for evaluating the
orchestrator end to end: one capture, a `1×1` image of uniform gray `100`,
background value `50`, 32 identical valid foreground lines, zero mean and
unit std of length 32, a state dict with `fc.weight` of shape `(255, 32)`,
and the identity as the opaque forward pass — so the intensities the run
returns are exactly the vector that reached the forward pass. -/
def envC1 : Env where
  captures := [("a.png", 0)]
  image := some ⟨1, 1, fun _ _ => 100⟩
  bgFile := some ["0 0 1 1 50"]
  fgFile := some (List.replicate 32 "0 0 1 1")
  meanArr := some (List.replicate 32 0)
  stdArr := some (List.replicate 32 1)
  stateDict := some (fun k => if k = "fc.weight" then some [255, 32] else none)
  forward := id

/-! ## Characterization of `_load_rois` -/

lemma parseRoiLine_empty : parseRoiLine "" = none := by decide

lemma loadRoisGo_none_eq (ls : List String) : ∀ acc,
    loadRoisGo none ls acc = acc ++ ls.filterMap (fun l => parseRoiLine (pyStrip l)) := by
  induction ls with
  | nil => intro acc; simp [loadRoisGo]
  | cons s ls ih =>
    intro acc
    by_cases h : pyStrip s = ""
    · have hp : parseRoiLine (pyStrip s) = none := by rw [h]; exact parseRoiLine_empty
      simp [loadRoisGo, h, hp, parseRoiLine_empty, List.filterMap_cons, ih]
    · cases hp : parseRoiLine (pyStrip s) with
      | none => simp [loadRoisGo, h, hp, limHit, List.filterMap_cons, ih]
      | some r => simp [loadRoisGo, h, hp, limHit, List.filterMap_cons, ih]

lemma limHit_false_of_lt {l n : ℕ} (h : n < l) : limHit (some l) n = false := by
  cases l with
  | zero => simp [limHit]
  | succ k => simp [limHit]; omega

lemma limHit_true_of_le {l n : ℕ} (hl : l ≠ 0) (h : l ≤ n) : limHit (some l) n = true := by
  cases l with
  | zero => omega
  | succ k => simp [limHit]; omega

lemma loadRoisGo_some_eq (l : ℕ) (ls : List String) : ∀ acc, acc.length < l →
    loadRoisGo (some l) ls acc =
      acc ++ (ls.filterMap (fun s => parseRoiLine (pyStrip s))).take (l - acc.length) := by
  induction ls with
  | nil => intro acc _; simp [loadRoisGo]
  | cons s ls ih =>
    intro acc hacc
    by_cases h : pyStrip s = ""
    · have hp : parseRoiLine (pyStrip s) = none := by rw [h]; exact parseRoiLine_empty
      simp [loadRoisGo, h, hp, parseRoiLine_empty, List.filterMap_cons, ih acc hacc]
    · cases hp : parseRoiLine (pyStrip s) with
      | none =>
        simp [loadRoisGo, h, hp, limHit_false_of_lt hacc, List.filterMap_cons,
          ih acc hacc]
      | some r =>
        by_cases hfull : l ≤ acc.length + 1
        · have hHit : limHit (some l) (acc.length + 1) = true :=
            limHit_true_of_le (by omega) (by omega)
          have hone : l - acc.length = 1 := by omega
          simp [loadRoisGo, h, hp, hHit, hone, List.filterMap_cons]
        · have hlt : (acc ++ [r]).length < l := by simp; omega
          have hHit : limHit (some l) (acc.length + 1) = false := by
            have := limHit_false_of_lt (show acc.length + 1 < l by omega)
            simpa using this
          have hrec := ih (acc ++ [r]) hlt
          have hnum : l - acc.length = (l - (acc.length + 1)) + 1 := by omega
          simp only [loadRoisGo, h, hp, List.length_append, List.length_cons,
            List.length_nil, Nat.zero_add, hHit, if_neg, Bool.false_eq_true,
            ite_false, hrec, List.filterMap_cons, hnum, List.take_succ_cons,
            List.append_assoc, List.singleton_append]

lemma loadRois_none_eq (lines : List String) :
    loadRois lines none = lines.filterMap (fun l => parseRoiLine (pyStrip l)) := by
  simpa [loadRois] using loadRoisGo_none_eq lines []

lemma loadRois_some_eq (lines : List String) (l : ℕ) (hl : l ≠ 0) :
    loadRois lines (some l) = (lines.filterMap (fun s => parseRoiLine (pyStrip s))).take l := by
  simpa [loadRois] using loadRoisGo_some_eq l lines [] (by simp; omega)

/-! ## Characterization of the catalog-loading failures -/

lemma parseBgValue_cases (lines : List String) :
    (¬ (pythonTokens (pyStrip (lines.headD ""))).length < 5 →
      ∀ v, pyFloat? ((pythonTokens (pyStrip (lines.headD ""))).getD 4 "") = some v →
        parseBgValue (some lines) = .ok (if v = 0 then eps else v)) ∧
    ((pythonTokens (pyStrip (lines.headD ""))).length < 5 →
      parseBgValue (some lines) =
        .error (.runtimeError "bgrois.txt must contain at least 5 values (xywh,value)")) ∧
    (¬ (pythonTokens (pyStrip (lines.headD ""))).length < 5 →
      pyFloat? ((pythonTokens (pyStrip (lines.headD ""))).getD 4 "") = none →
      parseBgValue (some lines) =
        .error (.runtimeError "Invalid bg value in bgrois.txt")) := by
  refine ⟨fun h5 v hv => ?_, fun h5 => ?_, fun h5 hv => ?_⟩
  · simp only [parseBgValue]
    rw [if_neg h5, hv]
  · simp only [parseBgValue]
    rw [if_pos h5]
  · simp only [parseBgValue]
    rw [if_neg h5, hv]

lemma parseBgValue_some_error_iff (lines : List String) :
    exceptIsOk (parseBgValue (some lines)) = false ↔
      (pythonTokens (pyStrip (lines.headD ""))).length < 5 ∨
      pyFloat? ((pythonTokens (pyStrip (lines.headD ""))).getD 4 "") = none := by
  obtain ⟨hok, herr5, herrv⟩ := parseBgValue_cases lines
  by_cases h5 : (pythonTokens (pyStrip (lines.headD ""))).length < 5
  · rw [herr5 h5]
    exact iff_of_true rfl (Or.inl h5)
  · cases hv : pyFloat? ((pythonTokens (pyStrip (lines.headD ""))).getD 4 "") with
    | none =>
      rw [herrv h5 hv]
      exact iff_of_true rfl (Or.inr rfl)
    | some v =>
      rw [hok h5 v hv]
      refine iff_of_false (by simp [exceptIsOk]) ?_
      rintro (h | h)
      · exact h5 h
      · exact Option.noConfusion h

lemma loadFgRois_some_error_iff (lines : List String) :
    exceptIsOk (loadFgRois (some lines)) = false ↔
      (lines.filterMap (fun s => parseRoiLine (pyStrip s))).length < 32 := by
  have hlen : (loadRois lines (some 32)).length =
      min 32 (lines.filterMap (fun s => parseRoiLine (pyStrip s))).length := by
    rw [loadRois_some_eq lines 32 (by omega), List.length_take]
  by_cases h : (loadRois lines (some 32)).length < 32
  · rw [show loadFgRois (some lines) = .error
      (.runtimeError ("ROIs insufficient: need 32, got " ++
        toString (loadRois lines (some 32)).length)) by
      simp only [loadFgRois]; rw [if_pos h]]
    exact iff_of_true rfl (by omega)
  · rw [show loadFgRois (some lines) = .ok (loadRois lines (some 32)) by
      simp only [loadFgRois]; rw [if_neg h]]
    exact iff_of_false (by simp [exceptIsOk]) (by omega)

lemma loadRoiCatalog_error_iff (fgFile bgFile : Option (List String)) :
    exceptIsOk (loadRoiCatalog fgFile bgFile) = false ↔
      exceptIsOk (parseBgValue bgFile) = false ∨
      exceptIsOk (loadFgRois fgFile) = false := by
  unfold loadRoiCatalog
  cases hbg : parseBgValue bgFile with
  | error e => simp [Except.bind, exceptIsOk, hbg]
  | ok v =>
    cases hfg : loadFgRois fgFile with
    | error e => simp [Except.bind, exceptIsOk, hbg, hfg]
    | ok l => simp [Except.bind, exceptIsOk, hbg, hfg, pure, Except.pure]

/-! ## The per-region mean equals the mean over the clipped intersection -/

lemma listSum_Ico (f : ℤ → ℚ) (a : ℤ) (n : ℕ) :
    ((List.range n).map (fun i : ℕ => f (a + (i : ℤ)))).sum =
      ∑ x ∈ Finset.Ico a (a + (n : ℤ)), f x := by
  induction n with
  | zero => simp
  | succ n ih =>
    rw [List.range_succ, List.map_append, List.sum_append]
    have hins : Finset.Ico a (a + ((n + 1 : ℕ) : ℤ)) =
        insert (a + (n : ℤ)) (Finset.Ico a (a + (n : ℤ))) := by
      ext z
      simp only [Finset.mem_Ico, Finset.mem_insert]
      omega
    rw [hins, Finset.sum_insert (by simp [Finset.mem_Ico]), ih]
    simp [add_comm]

lemma roiMean_eq (img : GrayImage) (roi : ℤ × ℤ × ℤ × ℤ) :
    computeRoiMeanGray img roi = roiInterMean img roi := by
  obtain ⟨x, y, w, h⟩ := roi
  have hA : Finset.Ico y (y + h) ∩ Finset.Ico 0 img.H =
      Finset.Ico (max 0 y) (min img.H (y + h)) := by
    ext z; simp only [Finset.mem_inter, Finset.mem_Ico]; omega
  have hB : Finset.Ico x (x + w) ∩ Finset.Ico 0 img.W =
      Finset.Ico (max 0 x) (min img.W (x + w)) := by
    ext z; simp only [Finset.mem_inter, Finset.mem_Ico]; omega
  set x0 := max 0 x with hx0
  set y0 := max 0 y with hy0
  set x1 := min img.W (x + w) with hx1
  set y1 := min img.H (y + h) with hy1
  unfold computeRoiMeanGray roiInterMean roiInterSet
  simp only [← hx0, ← hy0, ← hx1, ← hy1, hA, hB]
  by_cases hc : x1 ≤ x0 ∨ y1 ≤ y0
  · rw [if_pos hc]
    have hempty : Finset.Ico y0 y1 ×ˢ Finset.Ico x0 x1 = (∅ : Finset (ℤ × ℤ)) := by
      rcases hc with h1 | h1
      · rw [Finset.Ico_eq_empty (by omega : ¬x0 < x1), Finset.product_empty]
      · rw [Finset.Ico_eq_empty (by omega : ¬y0 < y1), Finset.empty_product]
    rw [if_pos hempty]
  · rw [if_neg hc]
    push_neg at hc
    obtain ⟨hx01, hy01⟩ := hc
    have hne : Finset.Ico y0 y1 ×ˢ Finset.Ico x0 x1 ≠ (∅ : Finset (ℤ × ℤ)) := by
      apply Finset.Nonempty.ne_empty
      exact Finset.Nonempty.product (Finset.nonempty_Ico.mpr hy01)
        (Finset.nonempty_Ico.mpr hx01)
    rw [if_neg hne]
    have hrow : ∀ yy : ℤ,
        ((List.range (x1 - x0).toNat).map (fun j : ℕ => img.px yy (x0 + (j : ℤ)))).sum =
          ∑ xx ∈ Finset.Ico x0 x1, img.px yy xx := by
      intro yy
      rw [listSum_Ico (fun xx => img.px yy xx) x0 (x1 - x0).toNat,
        show x0 + ((x1 - x0).toNat : ℤ) = x1 by omega]
    have hnum :
        ((List.range (y1 - y0).toNat).map (fun i : ℕ =>
            ((List.range (x1 - x0).toNat).map
              (fun j : ℕ => img.px (y0 + (i : ℤ)) (x0 + (j : ℤ)))).sum)).sum =
          ∑ p ∈ Finset.Ico y0 y1 ×ˢ Finset.Ico x0 x1, img.px p.1 p.2 := by
      rw [Finset.sum_product]
      simp only [hrow]
      rw [listSum_Ico (fun yy => ∑ xx ∈ Finset.Ico x0 x1, img.px yy xx) y0 (y1 - y0).toNat,
        show y0 + ((y1 - y0).toNat : ℤ) = y1 by omega]
    rw [hnum]
    congr 1
    rw [Finset.card_product, Int.card_Ico, Int.card_Ico]
    have h1 : (((y1 - y0).toNat : ℕ) : ℚ) = (y1 : ℚ) - (y0 : ℚ) := by
      rw [show (((y1 - y0).toNat : ℕ) : ℚ) = (((y1 - y0).toNat : ℤ) : ℚ) by push_cast; ring,
        Int.toNat_of_nonneg (by omega : (0 : ℤ) ≤ y1 - y0)]
      push_cast; ring
    have h2 : (((x1 - x0).toNat : ℕ) : ℚ) = (x1 : ℚ) - (x0 : ℚ) := by
      rw [show (((x1 - x0).toNat : ℕ) : ℚ) = (((x1 - x0).toNat : ℤ) : ℚ) by push_cast; ring,
        Int.toNat_of_nonneg (by omega : (0 : ℤ) ≤ x1 - x0)]
      push_cast; ring
    push_cast [h1, h2]
    ring

/-! ## `linspace` and `predict` facts -/

lemma linspace_length (a b : ℚ) (n : ℕ) : (linspace a b n).length = n := by
  match n with
  | 0 => rfl
  | 1 => rfl
  | n + 2 => simp [linspace]

lemma linspace_getD (a b : ℚ) (n i : ℕ) (h2 : 2 ≤ n) (hi : i < n) :
    (linspace a b n).getD i 0 = a + (b - a) * i / ((n : ℚ) - 1) := by
  match n, h2 with
  | n + 2, _ =>
    simp only [linspace]
    rw [List.getD_eq_getElem?_getD, List.getElem?_map,
      List.getElem?_range (show i < n + 2 by omega)]
    simp

lemma predict_ok (fwd : List ℚ → List ℚ) (mean std features : List ℚ)
    (hlen : features.length = mean.length) :
    predict ⟨some fwd, mean, std⟩ features =
      .ok (linspace 400 1000 (fwd (normalizeVec features mean std)).length,
           fwd (normalizeVec features mean std)) := by
  simp only [predict]
  rw [if_neg (not_ne_iff.mpr hlen)]

lemma normalizeVec_replicate (n : ℕ) (v m s : ℚ) :
    normalizeVec (List.replicate n v) (List.replicate n m) (List.replicate n s) =
      List.replicate n ((v - m) / (s + eps)) := by
  induction n with
  | zero => rfl
  | succ k ih =>
    simp only [List.replicate_succ, normalizeVec, List.zip_cons_cons, List.map_cons] at ih ⊢
    rw [ih]

/-! ## Claim theorems -/

/-- C3: for every foreground region, `_compute_roi_mean_gray` equals the
arithmetic mean of the pixel intensities over the intersection of the
region rectangle with the image bounds, is `0.0` when that intersection is
empty (it is a total function, so nothing is raised), and the feature
extraction step of `reconstruct_latest` divides each per-region mean by
the background reference value. -/
theorem c3_extract_mean_and_background (img : GrayImage) (roi : ℤ × ℤ × ℤ × ℤ)
    (rois : List (ℤ × ℤ × ℤ × ℤ)) (bgValue : ℚ) :
    computeRoiMeanGray img roi = roiInterMean img roi ∧
    (roiInterSet img roi = ∅ → computeRoiMeanGray img roi = 0) ∧
    extractFeatures img rois bgValue =
      rois.map (fun r => computeRoiMeanGray img r / bgValue) := by
  refine ⟨roiMean_eq img roi, fun h => ?_, ?_⟩
  · rw [roiMean_eq]
    unfold roiInterMean
    rw [if_pos h]
  · unfold extractFeatures
    rw [List.map_map]
    rfl

/-- Witness for C3: a region fully outside a `2×2` image has an empty
intersection with the image bounds and its extracted mean is `0`. -/
theorem c3_witness :
    roiInterSet ⟨2, 2, fun _ _ => 7⟩ (5, 5, 1, 1) = ∅ ∧
    computeRoiMeanGray ⟨2, 2, fun _ _ => 7⟩ (5, 5, 1, 1) = 0 := by
  have hs : roiInterSet ⟨2, 2, fun _ _ => 7⟩ (5, 5, 1, 1) = ∅ := by
    ext p
    simp only [roiInterSet, Finset.mem_product, Finset.mem_inter, Finset.mem_Ico,
      Finset.not_mem_empty, iff_false]
    omega
  exact ⟨hs, (c3_extract_mean_and_background ⟨2, 2, fun _ _ => 7⟩ (5, 5, 1, 1) [] 1).2.1 hs⟩

/-- C4: `ModelLoader.load` derives the output dimensionality as the row
count (`shape[0]`) of the `fc.weight` tensor of the decoded state dict,
and falls back to the configured default `255` when that key is absent. -/
theorem c4_output_dim (sd : String → Option (List ℕ)) :
    (∀ r rest, sd "fc.weight" = some (r :: rest) → loadOutputDim sd = some r) ∧
    (sd "fc.weight" = none → loadOutputDim sd = some 255) := by
  constructor
  · intro r rest h
    simp [loadOutputDim, h]
  · intro h
    simp [loadOutputDim, h]

/-- Witness for C4: a state dict with `fc.weight` of shape `(255, 32)`
gives output dimension `255`; one without `fc.weight` gives the default
`255`. -/
theorem c4_witness :
    loadOutputDim (fun k => if k = "fc.weight" then some [255, 32] else none) = some 255 ∧
    loadOutputDim (fun _ => none) = some 255 :=
  ⟨(c4_output_dim (fun k => if k = "fc.weight" then some [255, 32] else none)).1
      255 [32] (by decide),
   (c4_output_dim (fun _ => none)).2 rfl⟩

/-- C7: `ModelLoader.predict` on a loaded model raises the
dimension-mismatch `ValueError` (the spec's `DimensionMismatch`) exactly
when the feature vector's length differs from the length of the loaded
`input_mean` vector (the model's input dimension). -/
theorem c7_dimension_mismatch (st : LoaderState) (fwd : List ℚ → List ℚ)
    (features : List ℚ) (hm : st.model = some fwd)
    (hne : features.length ≠ st.inputMean.length) :
    predict st features = .error (.valueError
      ("Input features dimension mismatch. Expected " ++ toString st.inputMean.length ++
       ", got " ++ toString features.length)) := by
  obtain ⟨m, mean, std⟩ := st
  simp only at hm hne
  cases hm
  simp only [predict]
  rw [if_pos hne]

/-- Witness for C7: `len(mean) = 32` and a feature vector of length `31`
raise the dimension mismatch. -/
theorem c7_witness :
    predict ⟨some id, List.replicate 32 0, List.replicate 32 1⟩ (List.replicate 31 5) =
      .error (.valueError ("Input features dimension mismatch. Expected " ++
        toString (List.replicate 32 (0 : ℚ)).length ++ ", got " ++
        toString (List.replicate 31 (5 : ℚ)).length)) :=
  c7_dimension_mismatch ⟨some id, List.replicate 32 0, List.replicate 32 1⟩ id
    (List.replicate 31 5) rfl (by simp)

/-- C8: calling `ModelLoader.predict` while the model handle is still
unset (as after `__init__`, before a successful `load`) raises
`RuntimeError`, for every input feature vector. -/
theorem c8_predict_before_load (st : LoaderState) (features : List ℚ)
    (hm : st.model = none) :
    predict st features =
      .error (.runtimeError "Model not loaded. Call load() first.") := by
  obtain ⟨m, mean, std⟩ := st
  simp only at hm
  cases hm
  simp [predict]

/-- Witness for C8: a freshly initialized loader state rejects any input. -/
theorem c8_witness :
    predict ⟨none, [], []⟩ [1, 2] =
      .error (.runtimeError "Model not loaded. Call load() first.") :=
  c8_predict_before_load ⟨none, [], []⟩ [1, 2] rfl

/-- C2 counterexample: with a well-formed foreground file of exactly 32
valid lines and a background line of exactly 5 tokens whose 5th token is
not numeric, catalog loading still fails — yet none of the four failure
conditions enumerated by the claim holds (both files exist, the
background line has 5 tokens, and 32 valid foreground regions parse), so
the claim's "exactly when" is false at this input. -/
theorem c2_counterexample :
    exceptIsOk (loadRoiCatalog (some (List.replicate 32 "0 0 1 1"))
      (some ["0 0 1 1 abc"])) = false ∧
    (pythonTokens (pyStrip ((["0 0 1 1 abc"] : List String).headD ""))).length = 5 ∧
    ((List.replicate 32 "0 0 1 1").filterMap
      (fun s => parseRoiLine (pyStrip s))).length = 32 := by
  refine ⟨by decide, by decide, by decide⟩

/-- C2 (amended): loading the ROI catalog fails exactly when the
foreground file is missing, the background file is missing, the background
line has fewer than 5 tokens OR its 5th token is not numeric, or fewer
than 32 valid foreground regions were parsed; a foreground file with
exactly 32 valid lines (and a well-formed background file) succeeds. -/
theorem c2_catalog_error_iff (fgFile bgFile : Option (List String)) :
    exceptIsOk (loadRoiCatalog fgFile bgFile) = false ↔
      fgFile = none ∨ bgFile = none ∨
      (∃ lines, bgFile = some lines ∧
        ((pythonTokens (pyStrip (lines.headD ""))).length < 5 ∨
         pyFloat? ((pythonTokens (pyStrip (lines.headD ""))).getD 4 "") = none)) ∨
      (∃ lines, fgFile = some lines ∧
        (lines.filterMap (fun s => parseRoiLine (pyStrip s))).length < 32) := by
  rw [loadRoiCatalog_error_iff]
  cases fgFile with
  | none =>
    refine iff_of_true (Or.inr rfl) (Or.inl rfl)
  | some fl =>
    cases bgFile with
    | none =>
      refine iff_of_true (Or.inl rfl) (Or.inr (Or.inl rfl))
    | some bl =>
      rw [parseBgValue_some_error_iff, loadFgRois_some_error_iff]
      constructor
      · rintro (hbg | hfg)
        · exact Or.inr (Or.inr (Or.inl ⟨bl, rfl, hbg⟩))
        · exact Or.inr (Or.inr (Or.inr ⟨fl, rfl, hfg⟩))
      · rintro (h | h | ⟨ls, hls, hbg⟩ | ⟨ls, hls, hfg⟩)
        · exact Option.noConfusion h
        · exact Option.noConfusion h
        · obtain rfl : bl = ls := Option.some.inj hls
          exact Or.inl hbg
        · obtain rfl : fl = ls := Option.some.inj hls
          exact Or.inr hfg

/-- C5: every line whose first four tokens are integers yields the region
built from them (later tokens ignored); a line with fewer than 4 tokens or
a non-integer among the first four parses to `None` (so `_load_rois` skips
it silently: with no limit the result is exactly the parses that
succeeded); and with a nonzero limit parsing stops after the first `limit`
valid regions. -/
theorem c5_roi_line_parsing :
    (∀ line a b c d rest x y w h,
      pythonTokens line = a :: b :: c :: d :: rest →
      pyInt? a = some x → pyInt? b = some y → pyInt? c = some w → pyInt? d = some h →
      parseRoiLine line = some (x, y, w, h)) ∧
    (∀ line, ((pythonTokens line).length < 4 ∨
        ∃ i, i < 4 ∧ pyInt? ((pythonTokens line).getD i "") = none) →
      parseRoiLine line = none) ∧
    (∀ lines, loadRois lines none = lines.filterMap (fun l => parseRoiLine (pyStrip l))) ∧
    (∀ lines l, l ≠ 0 →
      loadRois lines (some l) =
        (lines.filterMap (fun s => parseRoiLine (pyStrip s))).take l) := by
  refine ⟨?_, ?_, loadRois_none_eq, loadRois_some_eq⟩
  · intro line a b c d rest x y w h htok hx hy hw hh
    unfold parseRoiLine
    rw [htok]
    rw [if_neg (by simp)]
    simp [List.getD, hx, hy, hw, hh]
  · intro line hbad
    unfold parseRoiLine
    by_cases hlen : (pythonTokens line).length < 4
    · rw [if_pos hlen]
    · rw [if_neg hlen]
      rcases hbad with h | ⟨i, hi, hnone⟩
      · exact absurd h hlen
      · interval_cases i
        · rw [hnone]
        · rw [hnone]
          cases pyInt? ((pythonTokens line).getD 0 "") <;> rfl
        · rw [hnone]
          cases pyInt? ((pythonTokens line).getD 0 "") <;>
            cases pyInt? ((pythonTokens line).getD 1 "") <;> rfl
        · rw [hnone]
          cases pyInt? ((pythonTokens line).getD 0 "") <;>
            cases pyInt? ((pythonTokens line).getD 1 "") <;>
            cases pyInt? ((pythonTokens line).getD 2 "") <;> rfl

/-- Witness for C5: a mixed-separator line with a 5th token parses to its
first four integers; a 3-token line is skipped; a limit of 2 keeps the
first two valid regions. -/
theorem c5_witness :
    parseRoiLine "1, 2 3\t4  junk" = some (1, 2, 3, 4) ∧
    parseRoiLine "1 2 3" = none ∧
    loadRois ["0 0 1 1", "bad line", "1 1 2 2", "2 2 3 3"] (some 2) =
      [(0, 0, 1, 1), (1, 1, 2, 2)] := by
  refine ⟨?_, ?_, ?_⟩
  · exact c5_roi_line_parsing.1 "1, 2 3\t4  junk" "1" "2" "3" "4" ["junk"] 1 2 3 4
      (by decide) (by decide) (by decide) (by decide) (by decide)
  · exact c5_roi_line_parsing.2.1 "1 2 3" (Or.inl (by decide))
  · rw [c5_roi_line_parsing.2.2.2 ["0 0 1 1", "bad line", "1 1 2 2", "2 2 3 3"] 2
      (by decide)]
    decide

/-- C6 counterexample: a background file whose first line is empty but
whose second line is fully valid.  The spec-side reading (5th token of the
first non-empty line) yields `50`, but the code reads only
`f.readline()` — the first line — and raises instead of using `50`, so
the claim as stated is false at this input. -/
theorem c6_counterexample :
    specBgValueFirstNonEmpty ["", "1 2 3 4 50"] = some 50 ∧
    parseBgValue (some ["", "1 2 3 4 50"]) =
      .error (.runtimeError "bgrois.txt must contain at least 5 values (xywh,value)") := by
  exact ⟨by decide, by decide⟩

/-- C6 (amended): the background reference value is the 5th numeric token
of the FIRST line of the background file (an empty or malformed first
line is an error even when a later line is valid), except that a value of
exactly `0` is replaced in place with `1e-6` rather than raised. -/
theorem c6_bg_value_first_line (lines : List String) (v : ℚ)
    (h5 : ¬ (pythonTokens (pyStrip (lines.headD ""))).length < 5)
    (hv : pyFloat? ((pythonTokens (pyStrip (lines.headD ""))).getD 4 "") = some v) :
    parseBgValue (some lines) = .ok (if v = 0 then eps else v) :=
  (parseBgValue_cases lines).1 h5 v hv

/-- Witness for C6: a first-line 5th token of `0` yields the epsilon
`1e-6`; a 5th token of `50` yields `50`. -/
theorem c6_witness :
    parseBgValue (some ["0 0 1 1 0"]) = .ok eps ∧
    parseBgValue (some ["0 0 1 1 50"]) = .ok 50 := by
  constructor
  · have h := c6_bg_value_first_line ["0 0 1 1 0"] 0 (by decide) (by decide)
    rw [if_pos rfl] at h
    exact h
  · have h := c6_bg_value_first_line ["0 0 1 1 50"] 50 (by decide) (by decide)
    rw [if_neg (by norm_num)] at h
    exact h

/-- C9: with no calibration range in the code, every successful `predict`
returns wavelengths `np.linspace(400, 1000, O)` where `O` is the number
of intensities: the lengths agree, and for `O ≥ 2` the points run from
`400` to `1000` inclusive with a constant step `(1000-400)/(O-1)`. -/
theorem c9_wavelengths (st : LoaderState) (features ws ints : List ℚ)
    (h : predict st features = .ok (ws, ints)) :
    ws = linspace 400 1000 ints.length ∧
    ws.length = ints.length ∧
    (2 ≤ ints.length →
      ws.getD 0 0 = 400 ∧
      ws.getD (ints.length - 1) 0 = 1000 ∧
      ∀ i, i + 1 < ints.length →
        ws.getD (i + 1) 0 - ws.getD i 0 = (1000 - 400) / ((ints.length : ℚ) - 1)) := by
  obtain ⟨m, mean, std⟩ := st
  cases m with
  | none => exact absurd h (by simp [predict])
  | some fwd =>
    simp only [predict] at h
    by_cases hlen : features.length ≠ mean.length
    · rw [if_pos hlen] at h
      exact absurd h (by simp)
    · rw [if_neg hlen] at h
      injection h with h2
      obtain ⟨hws, hints⟩ := Prod.mk.inj h2
      subst hints
      subst hws
      set nv := normalizeVec features mean std with hnv
      set n := (fwd nv).length with hn
      have hne0 : ∀ h2 : 2 ≤ n, ((n : ℚ) - 1) ≠ 0 := by
        intro h2
        have : (2 : ℚ) ≤ (n : ℚ) := by exact_mod_cast h2
        linarith
      refine ⟨rfl, linspace_length 400 1000 n, fun hn2 => ⟨?_, ?_, ?_⟩⟩
      · rw [linspace_getD 400 1000 n 0 hn2 (by omega)]
        norm_num
      · rw [linspace_getD 400 1000 n (n - 1) hn2 (by omega),
          Nat.cast_sub (by omega : 1 ≤ n)]
        have := hne0 hn2
        push_cast
        field_simp
      · intro i hi
        rw [linspace_getD 400 1000 n (i + 1) hn2 (by omega),
          linspace_getD 400 1000 n i hn2 (by omega)]
        have := hne0 hn2
        push_cast
        field_simp
        ring

/-- Witness for C9: a loaded two-point model yields wavelengths
`[400, 1000]` for intensities `[1, 2]`. -/
theorem c9_witness :
    ([(400 : ℚ), 1000] : List ℚ) = linspace 400 1000 ([(1 : ℚ), 2]).length ∧
    ([(400 : ℚ), 1000] : List ℚ).length = ([(1 : ℚ), 2]).length ∧
    (2 ≤ ([(1 : ℚ), 2]).length →
      ([(400 : ℚ), 1000]).getD 0 0 = 400 ∧
      ([(400 : ℚ), 1000]).getD (([(1 : ℚ), 2]).length - 1) 0 = 1000 ∧
      ∀ i, i + 1 < ([(1 : ℚ), 2]).length →
        ([(400 : ℚ), 1000]).getD (i + 1) 0 - ([(400 : ℚ), 1000]).getD i 0 =
          (1000 - 400) / ((([(1 : ℚ), 2]).length : ℚ) - 1)) := by
  have hl : linspace 400 1000 2 = [400, 1000] := by
    simp [linspace, List.range_succ]
    norm_num
  refine c9_wavelengths ⟨some (fun _ => [1, 2]), [0, 0], [1, 1]⟩ [3, 4] [400, 1000] [1, 2] ?_
  rw [predict_ok (fun _ => [1, 2]) [0, 0] [1, 1] [3, 4] (by simp)]
  simp [hl]

/-- C10: when no file in the capture directory has a `.png`, `.jpg` or
`.jpeg` suffix, `reconstruct_latest` raises `RuntimeError` with exactly
the message `No capture found. Please run 'capture' first.` — for every
state of the remaining assets (they may all be missing or malformed), so
the failure happens before the image or any ROI/stats/model asset is
consulted. -/
theorem c10_no_capture (env : Env)
    (h : ∀ f ∈ env.captures, strEndsWith f.1 ".png" = false ∧
      strEndsWith f.1 ".jpg" = false ∧ strEndsWith f.1 ".jpeg" = false) :
    reconstructLatest env =
      .error (.runtimeError "No capture found. Please run 'capture' first.") := by
  have hlist : listCaptures env.captures = [] := by
    unfold listCaptures
    rw [List.filter_eq_nil_iff.mpr (fun a ha => by simp [(h a ha).1]),
      List.filter_eq_nil_iff.mpr (fun a ha => by simp [(h a ha).2.1]),
      List.filter_eq_nil_iff.mpr (fun a ha => by simp [(h a ha).2.2])]
    rfl
  have hlatest : latestCapture env.captures = none := by
    unfold latestCapture
    rw [hlist]
  simp only [reconstructLatest, hlatest]

/-- Witness for C10: a capture directory holding only `notes.txt`, with
every other asset absent, yields exactly the no-capture error. -/
theorem c10_witness :
    reconstructLatest ⟨[("notes.txt", 5)], none, none, none, none, none, none, id⟩ =
      .error (.runtimeError "No capture found. Please run 'capture' first.") :=
  c10_no_capture ⟨[("notes.txt", 5)], none, none, none, none, none, none, id⟩ (by decide)

/-- C1 (code bug): `reconstruct_latest` standardizes the features at
model.py:229 and then `ModelLoader.predict` standardizes its input AGAIN
at model_loader.py:91, so the vector that reaches the forward pass is the
per-dimension standardization applied twice, not once.  With the identity
as the opaque forward pass, the intensities a run returns are exactly the
forward input: on the concrete environment `envC1` the raw features are
`[2, 2, …]`, and the run returns `normalize (normalize features)`, which
differs from `normalize features`. -/
theorem c1_forward_input_double_normalized :
    extractFeatures ⟨1, 1, fun _ _ => 100⟩ (List.replicate 32 (0, 0, 1, 1)) 50 =
      List.replicate 32 2 ∧
    (reconstructLatest envC1).toOption.map Prod.snd =
      some (normalizeVec
        (normalizeVec (List.replicate 32 2) (List.replicate 32 0) (List.replicate 32 1))
        (List.replicate 32 0) (List.replicate 32 1)) ∧
    normalizeVec
        (normalizeVec (List.replicate 32 2) (List.replicate 32 0) (List.replicate 32 1))
        (List.replicate 32 0) (List.replicate 32 1) ≠
      normalizeVec (List.replicate 32 2) (List.replicate 32 0) (List.replicate 32 1) := by
  have hmean : computeRoiMeanGray ⟨1, 1, fun _ _ => 100⟩ (0, 0, 1, 1) = 100 := by
    norm_num [computeRoiMeanGray, List.range_succ]
  have hfeat : extractFeatures ⟨1, 1, fun _ _ => 100⟩ (List.replicate 32 (0, 0, 1, 1)) 50 =
      List.replicate 32 2 := by
    unfold extractFeatures
    rw [List.map_replicate, hmean, List.map_replicate]
    norm_num
  have hx1 : normalizeVec (List.replicate 32 2) (List.replicate 32 0)
      (List.replicate 32 1) = List.replicate 32 ((2 - 0) / (1 + eps)) :=
    normalizeVec_replicate 32 2 0 1
  have hx2 : normalizeVec (List.replicate 32 ((2 - 0) / (1 + eps))) (List.replicate 32 0)
      (List.replicate 32 1) = List.replicate 32 (((2 - 0) / (1 + eps) - 0) / (1 + eps)) :=
    normalizeVec_replicate 32 ((2 - 0) / (1 + eps)) 0 1
  have hcap : latestCapture envC1.captures = some "a.png" := by decide
  have himg : envC1.image = some ⟨1, 1, fun _ _ => 100⟩ := rfl
  have hbg : parseBgValue envC1.bgFile = .ok 50 := by decide
  have hfg : loadFgRois envC1.fgFile = .ok (List.replicate 32 (0, 0, 1, 1)) := by decide
  have hm : envC1.meanArr = some (List.replicate 32 0) := rfl
  have hs : envC1.stdArr = some (List.replicate 32 1) := rfl
  have hld : loaderLoad envC1 =
      .ok ⟨some id, List.replicate 32 0, List.replicate 32 1⟩ := rfl
  have hpred : predict ⟨some id, List.replicate 32 0, List.replicate 32 1⟩
      (List.replicate 32 ((2 - 0) / (1 + eps))) =
      .ok (linspace 400 1000 32,
           List.replicate 32 (((2 - 0) / (1 + eps) - 0) / (1 + eps))) := by
    rw [predict_ok id (List.replicate 32 0) (List.replicate 32 1)
      (List.replicate 32 ((2 - 0) / (1 + eps))) (by simp)]
    simp only [id_eq, hx2, List.length_replicate]
  have hwsne : linspace 400 1000 32 ≠ [] := by
    intro hh
    have hlen := linspace_length 400 1000 32
    rw [hh] at hlen
    simp at hlen
  have hrun : reconstructLatest envC1 =
      .ok (linspace 400 1000 32,
           List.replicate 32 (((2 - 0) / (1 + eps) - 0) / (1 + eps))) := by
    simp only [reconstructLatest, hcap, himg, hbg, hfg, hm, hs, Except.bind, hfeat,
      List.length_replicate, hx1, hld, hpred, hwsne]
    norm_num
  refine ⟨hfeat, ?_, ?_⟩
  · rw [hrun, hx1, hx2]
    rfl
  · rw [hx1, hx2]
    intro heq
    have h0 := congrArg (fun l => l.getD 0 0) heq
    simp only [List.replicate_succ, List.getD_cons_zero] at h0
    rw [eps] at h0
    norm_num at h0

end SpectrumML
